import Mathlib

/-!
gURL curl mode: a shallow embedding of `cmd/gurl/curl_mode.go`

The development embeds `executeCurlMode`, the function that turns a
`curlModeConfig` into one HTTP exchange, as Lean functions over an explicit
`World` (local files, standard streams) and an explicit `Env` (the parts of the
Go standard library and of the network the function calls into).

Go strings are byte strings.  They are embedded as Lean `String`s, and every
byte-level operation the source performs (`HasPrefix(_, "@")`, `s[1:]` after an
`@`, `SplitN(_, ":", 2)`) cuts at an ASCII byte, so it coincides with the
character-level operation used here.
-/

namespace Gurl

/-! ## Go string helpers used by the source -/

/-- Go `strings.HasPrefix(s, p)`. -/
def hasPrefix (s p : String) : Bool :=
  p.data.isPrefixOf s.data

/-- Go slice expression `s[1:]`.  The source only applies it to a string that
starts with the one-byte character `@`. -/
def dropFirst (s : String) : String :=
  ⟨s.data.drop 1⟩

/-- Go `unicode.IsSpace`: the Latin-1 spaces and the `White_Space` table. -/
def isSpace (c : Char) : Bool :=
  let n := c.toNat
  (9 ≤ n && n ≤ 13) || n == 32 || n == 0x85 || n == 0xA0 || n == 0x1680 ||
    (0x2000 ≤ n && n ≤ 0x200A) || n == 0x2028 || n == 0x2029 || n == 0x202F ||
    n == 0x205F || n == 0x3000

/-- Go `strings.TrimSpace`: drop leading and trailing white space. -/
def trimSpace (s : String) : String :=
  ⟨((s.data.dropWhile isSpace).reverse.dropWhile isSpace).reverse⟩

/-- Go `strings.SplitN(s, ":", 2)`: the whole string when it has no colon,
otherwise the text before the first colon and the text after it. -/
def splitColon2 (s : String) : List String :=
  match s.data.span (fun c => c != ':') with
  | (pre, _ :: post) => [⟨pre⟩, ⟨post⟩]
  | (_, []) => [s]

/-- The HTTP token characters (`httpguts.IsTokenRune`, and the same set as
`textproto.validHeaderFieldByte`): digits, letters and
`! # $ % & ' * + - . ^ _ | ~` and the grave accent. -/
def isTokenChar (c : Char) : Bool :=
  let n := c.toNat
  (48 ≤ n && n ≤ 57) || (97 ≤ n && n ≤ 122) || (65 ≤ n && n ≤ 90) ||
    n == 33 || n == 35 || n == 36 || n == 37 || n == 38 || n == 39 || n == 42 ||
    n == 43 || n == 45 || n == 46 || n == 94 || n == 95 || n == 96 || n == 124 ||
    n == 126

/-- The rewriting loop of `textproto.canonicalMIMEHeaderKey`: upper case for
the first letter and after each dash, lower case elsewhere. -/
def canonChars : Bool → List Char → List Char
  | _, [] => []
  | upper, c :: cs =>
    let n := c.toNat
    let c1 :=
      if upper && (97 ≤ n && n ≤ 122) then Char.ofNat (n - 32)
      else if !upper && (65 ≤ n && n ≤ 90) then Char.ofNat (n + 32)
      else c
    c1 :: canonChars (c1 == '-') cs

/-- Go `textproto.CanonicalMIMEHeaderKey`: a key made of token characters only
is put in canonical case, any other key is returned unchanged. -/
def canonicalMIMEHeaderKey (s : String) : String :=
  if s.data.all isTokenChar then ⟨canonChars true s.data⟩ else s

/-! ## `http.Header` -/

/-- Go `http.Header`, a `map[string][]string`, as an association list. -/
abbrev Header := List (String × List String)

/-- Map read `h[k]`: the values stored under the exact key `k`. -/
def Header.values : Header → String → List String
  | [], _ => []
  | (k1, vs) :: t, k => if k1 = k then vs else Header.values t k

/-- Map write `h[k] = vs`. -/
def Header.put : Header → String → List String → Header
  | [], k, vs => [(k, vs)]
  | (k1, vs1) :: t, k, vs =>
    if k1 = k then (k, vs) :: t else (k1, vs1) :: Header.put t k vs

/-- Go `Header.Add`: append a value under the canonical key. -/
def Header.add (h : Header) (key value : String) : Header :=
  let k := canonicalMIMEHeaderKey key
  h.put k (h.values k ++ [value])

/-- Go `Header.Set`: replace the values under the canonical key. -/
def Header.set (h : Header) (key value : String) : Header :=
  h.put (canonicalMIMEHeaderKey key) [value]

/-- Go `Header.Get`: the first value under the canonical key, or `""`. -/
def Header.get (h : Header) (key : String) : String :=
  match h.values (canonicalMIMEHeaderKey key) with
  | [] => ""
  | v :: _ => v

/-! ## Data model -/

/-- A Go `float64`: a finite value (every one is a rational number), an
infinity, or a NaN. -/
inductive Float64 where
  | finite (q : Rat)
  | posInf
  | negInf
  | nan
  deriving DecidableEq

/-- The Go comparison `x > 0` on a `float64`; it is false on a NaN. -/
def Float64.isPositive : Float64 → Bool
  | .finite q => decide (q > 0)
  | .posInf => true
  | .negInf => false
  | .nan => false

/-- The Go struct `curlModeConfig`. -/
structure curlModeConfig where
  url : String
  method : String
  headers : List String
  data : String
  dataFiles : List String
  insecure : Bool
  cacert : String
  cert : String
  key : String
  verbose : Bool
  silent : Bool
  showError : Bool
  includeHeaders : Bool
  headersOnly : Bool
  outputFile : String
  userAgent : String
  referer : String
  connectTimeout : Float64
  maxTime : Float64
  unixSocket : String
  followRedirects : Bool
  maxRedirs : Int
  compressed : Bool
  failOnError : Bool
  locationTrusted : Bool
  proxy : String
  noProxy : String
  uploadFile : String
  customRequest : String
  cookieJar : String
  cookie : String
  range_ : String
  ipv4Only : Bool
  ipv6Only : Bool

/-- The fields of a parsed `url.URL` that the source looks at. -/
structure URL where
  scheme : String
  host : String
  path : String
  deriving DecidableEq, Repr

/-- The `io.Reader` handed to `http.NewRequest`: the nil reader, an open
`*os.File`, `os.Stdin`, or a `strings.Reader` over a text held in memory. -/
inductive Body where
  | none
  | file (path : String)
  | stdin
  | text (s : String)
  deriving DecidableEq, Repr

/-- The fields of `http.Request` that the source sets or reads. -/
structure Request where
  method : String
  url : URL
  host : String
  header : Header
  body : Body
  deriving DecidableEq, Repr

/-- The two errors a `CheckRedirect` function of the source returns:
`fmt.Errorf("stopped after %d redirects", n)` and `http.ErrUseLastResponse`. -/
inductive RedirectError where
  | stoppedAfter (n : Int)
  | useLastResponse
  deriving DecidableEq, Repr

/-- The errors `executeCurlMode` returns, one constructor per `fmt.Errorf`
call of the source (the text of the wrapped cause is left out). -/
inductive CurlError where
  | openUploadFile (path : String)
  | readDataFile (filename : String)
  | createRequest
  | readCookieFile
  | readCACert
  | parseCACert
  | loadClientCert
  | requestFailed
  | createCookieJar
  | createOutputFile
  | readResponse
  deriving DecidableEq, Repr

/-- How `executeCurlMode` ends: it returns an error value (`none` for nil), or
the process leaves through `os.Exit`. -/
inductive Outcome where
  | returned (err : Option CurlError)
  | exited (code : Nat)
  deriving DecidableEq, Repr

/-- An `x509.CertPool`, as the list of certificates it holds. -/
abbrev CertPool := List String

/-- A `tls.Certificate`: the certificate chain and its private key. -/
structure Certificate where
  chain : List String
  privateKey : String
  deriving DecidableEq, Repr

/-- The fields of `tls.Config` that the source sets. -/
structure TLSConfig where
  insecureSkipVerify : Bool
  rootCAs : Option CertPool
  certificates : List Certificate
  deriving DecidableEq, Repr

/-- The `DialContext` of the transport: unset, a `net.Dialer` with a timeout
(a `time.Duration`, in whole nanoseconds), or the closure dialling a Unix
socket. -/
inductive Dialer where
  | default
  | timeout (nanoseconds : Int)
  | unixSocket (path : String)
  deriving DecidableEq

/-- The fields of `http.Transport` that the source sets. -/
structure Transport where
  tlsClientConfig : TLSConfig
  dialContext : Dialer
  proxy : Option URL

/-- The fields of `http.Client` that the source sets.  `checkRedirect` gets the
upcoming request and the requests made so far; it gives back the upcoming
request as the policy left it and the error it returned.  `timeout` is a
`time.Duration` in whole nanoseconds, zero for no timeout. -/
structure Client where
  checkRedirect : Request → List Request → Request × Option RedirectError
  timeout : Int
  transport : Transport

/-- The fields of an `http.Cookie` that identify it. -/
structure Cookie where
  name : String
  value : String
  raw : String
  deriving DecidableEq, Repr

/-- The fields of `http.Response` that the source reads.  `body` is what the
body stream delivers and `bodyError` tells whether the stream then fails. -/
structure Response where
  protoMajor : Int
  protoMinor : Int
  status : String
  statusCode : Int
  header : Header
  body : String
  bodyError : Bool
  deriving DecidableEq, Repr

/-- A file-system call made by the function, in the order made. -/
inductive FileOp where
  | opened (path : String)
  | read (path : String)
  | created (path : String)
  deriving DecidableEq, Repr

/-- The part of the machine the function touches: the contents of the files
`ioutil.ReadFile` can read, the paths `os.Open` succeeds on (a directory can be
opened and cannot be read), the paths `os.Create` succeeds on, the standard
streams, and the log of file-system calls.  Writes to an open file or to a
standard stream always succeed. -/
structure World where
  files : String → Option String
  openable : String → Bool
  creatable : String → Bool
  stdin : String
  stdout : String
  stderr : String
  ops : List FileOp

/-- `os.Open`: succeeds exactly on the paths that can be opened. -/
def World.openFile (w : World) (path : String) : Bool × World :=
  (w.openable path, { w with ops := w.ops ++ [FileOp.opened path] })

/-- `ioutil.ReadFile`: the full contents of a readable file. -/
def World.readFile (w : World) (path : String) : Option String × World :=
  (w.files path, { w with ops := w.ops ++ [FileOp.read path] })

/-- `os.Create`: on success the file exists and is empty. -/
def World.create (w : World) (path : String) : Bool × World :=
  if w.creatable path then
    (true, { w with
      files := fun p => if p = path then some "" else w.files p
      ops := w.ops ++ [FileOp.created path] })
  else
    (false, { w with ops := w.ops ++ [FileOp.created path] })

/-- A write at the end of the open file `path`. -/
def World.appendFile (w : World) (path : String) (s : String) : World :=
  { w with files := fun p => if p = path then some ((w.files p).getD "" ++ s) else w.files p }

/-- A write to standard output. -/
def World.print (w : World) (s : String) : World :=
  { w with stdout := w.stdout ++ s }

/-- A write to standard error. -/
def World.eprint (w : World) (s : String) : World :=
  { w with stderr := w.stderr ++ s }

/-- What the function calls outside this repository: the `version` constant of
the package, the conversion `time.Duration(x * float64(time.Second))` of a
number of seconds to whole `int64` nanoseconds (its rounding and its overflow
are those of the platform), `url.Parse` (with the empty-port clean-up of
`http.NewRequest`),
`CertPool.AppendCertsFromPEM` on a fresh pool (`none` when no certificate was
parsed), `tls.X509KeyPair`, `http.ProxyFromEnvironment` (`some` when it gives a
proxy and no error), `Client.Do`, `Response.Cookies`, `Cookie.String`, and the
order in which a `range` over a header map visits it. -/
structure Env where
  version : String
  toDuration : Float64 → Int
  parseURL : String → Option URL
  appendCertsFromPEM : String → Option CertPool
  x509KeyPair : String → String → Option Certificate
  proxyFromEnvironment : Request → Option URL
  doRequest : Client → Request → World → Option Response
  readSetCookies : Header → List Cookie
  cookieString : Cookie → String
  rangeOrder : Header → Header

/-! ## `executeCurlMode`, stage by stage -/

/-- Lines 60-72: the HTTP method. -/
def inferMethod (config : curlModeConfig) : String :=
  if config.method = "" then
    if config.headersOnly then "HEAD"
    else if config.uploadFile ≠ "" then "PUT"
    else if config.data ≠ "" then "POST"
    else "GET"
  else config.method

/-- Lines 74-99: the request body. -/
def resolveBody (config : curlModeConfig) (w : World) : Except CurlError Body × World :=
  if config.uploadFile ≠ "" then
    match w.openFile config.uploadFile with
    | (false, w1) => (.error (.openUploadFile config.uploadFile), w1)
    | (true, w1) => (.ok (.file config.uploadFile), w1)
  else if config.data ≠ "" then
    if config.data = "@" then (.ok .stdin, w)
    else if hasPrefix config.data "@" then
      let filename := dropFirst config.data
      match w.readFile filename with
      | (none, w1) => (.error (.readDataFile filename), w1)
      | (some data, w1) => (.ok (.text data), w1)
    else (.ok (.text config.data), w)
  else (.ok .none, w)

/-- Go `http.NewRequest`: an empty method means GET, the method must be a
token, the URL must parse; the request starts with an empty header map. -/
def newRequest (env : Env) (method url : String) (body : Body) : Option Request :=
  let m := if method = "" then "GET" else method
  if m.data.all isTokenChar then
    match env.parseURL url with
    | none => none
    | some u => some { method := m, url := u, host := u.host, header := [], body := body }
  else none

/-- Lines 107-115: the caller's header lines, each split at its first colon;
a line without a colon is skipped. -/
def addHeaders (h : Header) (headers : List String) : Header :=
  headers.foldl
    (fun acc header =>
      match splitColon2 header with
      | [k, v] => acc.add (trimSpace k) (trimSpace v)
      | _ => acc)
    h

/-- Lines 117-122: User-Agent. -/
def setUserAgent (env : Env) (config : curlModeConfig) (h : Header) : Header :=
  if config.userAgent ≠ "" then h.set "User-Agent" config.userAgent
  else h.set "User-Agent" ("gurl/" ++ env.version ++ " (HTTP mode)")

/-- Lines 124-127: Referer. -/
def setReferer (config : curlModeConfig) (h : Header) : Header :=
  if config.referer ≠ "" then h.set "Referer" config.referer else h

/-- Lines 129-141: Cookie, from the text or from the file after `@`. -/
def setCookie (config : curlModeConfig) (h : Header) (w : World) : Except CurlError Header × World :=
  if config.cookie ≠ "" then
    if hasPrefix config.cookie "@" then
      match w.readFile (dropFirst config.cookie) with
      | (none, w1) => (.error .readCookieFile, w1)
      | (some data, w1) => (.ok (h.set "Cookie" data), w1)
    else (.ok (h.set "Cookie" config.cookie), w)
  else (.ok h, w)

/-- Lines 143-146: Range. -/
def setRange (config : curlModeConfig) (h : Header) : Header :=
  if config.range_ ≠ "" then h.set "Range" ("bytes=" ++ config.range_) else h

/-- Lines 148-151: the default Content-Type. -/
def setContentType (config : curlModeConfig) (h : Header) : Header :=
  if config.data ≠ "" ∧ h.get "Content-Type" = "" then h.set "Content-Type" "application/json"
  else h

/-- Lines 153-156: Accept-Encoding. -/
def setCompressed (config : curlModeConfig) (h : Header) : Header :=
  if config.compressed then h.set "Accept-Encoding" "gzip, deflate" else h

/-- Lines 60-156: the request as assembled before the client is configured. -/
def buildRequest (env : Env) (config : curlModeConfig) (w : World) :
    Except CurlError Request × World :=
  let method := inferMethod config
  match resolveBody config w with
  | (.error e, w1) => (.error e, w1)
  | (.ok bodyReader, w1) =>
    match newRequest env method config.url bodyReader with
    | none => (.error .createRequest, w1)
    | some req =>
      let h1 := addHeaders req.header config.headers
      let h2 := setUserAgent env config h1
      let h3 := setReferer config h2
      match setCookie config h3 w1 with
      | (.error e, w2) => (.error e, w2)
      | (.ok h4, w2) =>
        let h5 := setRange config h4
        let h6 := setContentType config h5
        let h7 := setCompressed config h6
        (.ok { req with header := h7 }, w2)

/-- Lines 161-180: the function installed as `client.CheckRedirect`. -/
def checkRedirect (config : curlModeConfig) (req : Request) (via : List Request) :
    Request × Option RedirectError :=
  if config.followRedirects then
    if (via.length : Int) ≥ config.maxRedirs then
      (req, some (.stoppedAfter config.maxRedirs))
    else if config.locationTrusted ∧ via.length > 0 then
      match via with
      | [] => (req, none)
      | first :: _ =>
        let auth := first.header.get "Authorization"
        if auth ≠ "" then ({ req with header := req.header.set "Authorization" auth }, none)
        else (req, none)
    else (req, none)
  else (req, some .useLastResponse)

/-- Lines 182-198: the TLS configuration and the CA bundle. -/
def loadCACert (env : Env) (config : curlModeConfig) (w : World) :
    Except CurlError TLSConfig × World :=
  let tlsConfig : TLSConfig :=
    { insecureSkipVerify := config.insecure, rootCAs := none, certificates := [] }
  if config.cacert ≠ "" ∧ config.insecure = false then
    match w.readFile config.cacert with
    | (none, w1) => (.error .readCACert, w1)
    | (some caCert, w1) =>
      match env.appendCertsFromPEM caCert with
      | none => (.error .parseCACert, w1)
      | some caCertPool => (.ok { tlsConfig with rootCAs := some caCertPool }, w1)
  else (.ok tlsConfig, w)

/-- Lines 200-207: the client certificate; `tls.LoadX509KeyPair` reads the
certificate file, then the key file, then pairs them. -/
def loadClientCert (env : Env) (config : curlModeConfig) (tlsConfig : TLSConfig) (w : World) :
    Except CurlError TLSConfig × World :=
  if config.cert ≠ "" ∧ config.key ≠ "" then
    match w.readFile config.cert with
    | (none, w1) => (.error .loadClientCert, w1)
    | (some certPEM, w1) =>
      match w1.readFile config.key with
      | (none, w2) => (.error .loadClientCert, w2)
      | (some keyPEM, w2) =>
        match env.x509KeyPair certPEM keyPEM with
        | none => (.error .loadClientCert, w2)
        | some clientCert => (.ok { tlsConfig with certificates := [clientCert] }, w2)
  else (.ok tlsConfig, w)

/-- Lines 209-256: the transport and the client.  The Unix-socket branch also
assigns to `config.url`, so the configuration is given back as well. -/
def configureClient (env : Env) (config : curlModeConfig) (req : Request) (tlsConfig : TLSConfig) :
    Client × curlModeConfig :=
  let client0 : Client :=
    { checkRedirect := checkRedirect config
      timeout := 0
      transport := { tlsClientConfig := tlsConfig, dialContext := .default, proxy := none } }
  let dial1 :=
    if config.connectTimeout.isPositive then Dialer.timeout (env.toDuration config.connectTimeout)
    else client0.transport.dialContext
  let timeout1 :=
    if config.maxTime.isPositive then env.toDuration config.maxTime else client0.timeout
  let proxy1 :=
    if config.proxy ≠ "" then
      match env.proxyFromEnvironment req with
      | some proxyURL => some proxyURL
      | none => client0.transport.proxy
    else client0.transport.proxy
  let dial2 := if config.unixSocket ≠ "" then Dialer.unixSocket config.unixSocket else dial1
  let config2 :=
    if config.unixSocket ≠ "" then
      if ¬ hasPrefix config.url "http://" ∧ ¬ hasPrefix config.url "https://" then
        { config with url := "http://localhost" ++ config.url }
      else config
    else config
  let dial3 :=
    if config2.ipv4Only then Dialer.timeout (30 * 1000000000)
    else if config2.ipv6Only then Dialer.timeout (30 * 1000000000)
    else dial2
  ({ checkRedirect := checkRedirect config
     timeout := timeout1
     transport := { tlsClientConfig := tlsConfig, dialContext := dial3, proxy := proxy1 } },
   config2)

/-- The lines a `range` over a header map prints, each after `pre`. -/
def headerLines (env : Env) (pre : String) (h : Header) : String :=
  String.join ((env.rangeOrder h).map fun kv =>
    String.join (kv.2.map fun value => pre ++ kv.1 ++ ": " ++ value ++ "\n"))

/-- Lines 258-268: the verbose trace of the request on standard error. -/
def printRequest (env : Env) (config : curlModeConfig) (method : String) (req : Request)
    (w : World) : World :=
  if config.verbose then
    w.eprint ("> " ++ method ++ " " ++ req.url.path ++ " HTTP/1.1\n" ++
      "> Host: " ++ req.host ++ "\n" ++ headerLines env "> " req.header ++ ">\n")
  else w

/-- Lines 60-256: everything before the request is sent.  The result is the
request handed to `client.Do`, the client, and the local configuration. -/
def prepare (env : Env) (config : curlModeConfig) (w : World) :
    Except CurlError (Request × Client × curlModeConfig) × World :=
  match buildRequest env config w with
  | (.error e, w1) => (.error e, w1)
  | (.ok req, w1) =>
    match loadCACert env config w1 with
    | (.error e, w2) => (.error e, w2)
    | (.ok tls1, w2) =>
      match loadClientCert env config tls1 w2 with
      | (.error e, w3) => (.error e, w3)
      | (.ok tls2, w3) =>
        let (client, config2) := configureClient env config req tls2
        (.ok (req, client, config2), w3)

/-- Lines 276-288: the cookie jar. -/
def saveCookies (env : Env) (config : curlModeConfig) (resp : Response) (w : World) :
    Except CurlError Unit × World :=
  if config.cookieJar ≠ "" then
    let cookies := env.readSetCookies resp.header
    if cookies.length > 0 then
      match w.create config.cookieJar with
      | (false, w1) => (.error .createCookieJar, w1)
      | (true, w1) =>
        (.ok (), cookies.foldl
          (fun acc cookie => acc.appendFile config.cookieJar (env.cookieString cookie ++ "\n")) w1)
    else (.ok (), w)
  else (.ok (), w)

/-- Lines 290-299: the status line and the response headers on standard output. -/
def printResponseHeaders (env : Env) (config : curlModeConfig) (resp : Response) (w : World) :
    World :=
  if config.verbose ∨ config.includeHeaders ∨ config.headersOnly then
    w.print ("HTTP/" ++ toString resp.protoMajor ++ "." ++ toString resp.protoMinor ++ " " ++
      resp.status ++ "\n" ++ headerLines env "" resp.header ++ "\n")
  else w

/-- A write to the chosen output: standard output, or the created file. -/
def World.writeOutput (w : World) (output : Option String) (s : String) : World :=
  match output with
  | none => w.print s
  | some path => w.appendFile path s

/-- Lines 301-322: the output destination and the response body. -/
def writeBody (config : curlModeConfig) (resp : Response) (w : World) :
    Except CurlError Unit × World :=
  let dest : Except CurlError (Option String) × World :=
    if config.outputFile ≠ "" ∧ config.outputFile ≠ "-" then
      match w.create config.outputFile with
      | (false, w1) => (.error .createOutputFile, w1)
      | (true, w1) => (.ok (some config.outputFile), w1)
    else (.ok none, w)
  match dest with
  | (.error e, w1) => (.error e, w1)
  | (.ok output, w1) =>
    if config.silent = false ∧ config.headersOnly = false then
      let w2 := w1.writeOutput output resp.body
      if resp.bodyError then (.error .readResponse, w2)
      else if config.outputFile = "" then (.ok (), w2.print "\n")
      else (.ok (), w2)
    else (.ok (), w1)

/-- Lines 276-329: what happens once `client.Do` has given a response. -/
def handleResponse (env : Env) (config : curlModeConfig) (resp : Response) (w : World) :
    Outcome × World :=
  match saveCookies env config resp w with
  | (.error e, w1) => (.returned (some e), w1)
  | (.ok (), w1) =>
    let w2 := printResponseHeaders env config resp w1
    match writeBody config resp w2 with
    | (.error e, w3) => (.returned (some e), w3)
    | (.ok (), w3) =>
      if config.failOnError ∧ resp.statusCode ≥ 400 then (.exited 22, w3)
      else (.returned none, w3)

/-- The function `executeCurlMode` of `curl_mode.go`. -/
def executeCurlMode (env : Env) (config : curlModeConfig) (w : World) : Outcome × World :=
  match prepare env config w with
  | (.error e, w1) => (.returned (some e), w1)
  | (.ok (req, client, config2), w1) =>
    let w2 := printRequest env config2 (inferMethod config) req w1
    match env.doRequest client req w2 with
    | none => (.returned (some .requestFailed), w2)
    | some resp => handleResponse env config2 resp w2

/-- Lines 334-368 of `executeCurlModeFromFlags`: the `url` and the
`unixSocket` of the configuration, from the positional arguments and from the
answer of `isUnixSocket` (a function variable set elsewhere in the package).
`none` stands for the call of `fail` when there is no argument. -/
def urlFromFlags (isUnixSocket : Bool) (args : List String) : Option (String × String) :=
  match args with
  | [] => none
  | arg0 :: rest =>
    let url :=
      if ¬ hasPrefix arg0 "http://" ∧ ¬ hasPrefix arg0 "https://" then
        if arg0.data.contains ':' || hasPrefix arg0 "/" then "https://" ++ arg0
        else "https://" ++ arg0
      else arg0
    if isUnixSocket then
      match rest with
      | arg1 :: _ => some (if ¬ hasPrefix arg1 "/" then "/" ++ arg1 else arg1, arg0)
      | [] => some ("/", arg0)
    else some (url, "")

/-! ## Sample inputs and observations -/

/-- A configuration with every field empty, false or zero. -/
def emptyConfig : curlModeConfig :=
  { url := "", method := "", headers := [], data := "", dataFiles := [], insecure := false,
    cacert := "", cert := "", key := "", verbose := false, silent := false, showError := false,
    includeHeaders := false, headersOnly := false, outputFile := "", userAgent := "",
    referer := "", connectTimeout := .finite 0, maxTime := .finite 0, unixSocket := "",
    followRedirects := false, maxRedirs := 0, compressed := false, failOnError := false,
    locationTrusted := false, proxy := "", noProxy := "", uploadFile := "",
    customRequest := "", cookieJar := "", cookie := "", range_ := "", ipv4Only := false,
    ipv6Only := false }

/-- What `url.Parse` gives on the three URL texts the examples use; this
sample parser rejects every other text. -/
def sampleParseURL (s : String) : Option URL :=
  if s = "http://example.com/" then some { scheme := "http", host := "example.com", path := "/" }
  else if s = "/v1/status" then some { scheme := "", host := "", path := "/v1/status" }
  else if s = "http://localhost/v1/status" then
    some { scheme := "http", host := "localhost", path := "/v1/status" }
  else none

/-- A response with the given status code, cookies in `Set-Cookie` lines, and
the body `hello`. -/
def sampleResponse (code : Int) (setCookies : List String) : Response :=
  { protoMajor := 1, protoMinor := 1, status := toString code, statusCode := code,
    header := [("Set-Cookie", setCookies)], body := "hello", bodyError := false }

/-- A sample environment: version `1.0`, durations truncated to whole
nanoseconds (zero off the finite values), the sample URL parser, PEM texts that
never parse, no proxy, a server that answers 200 without cookies, cookies read
off the `Set-Cookie` lines as they are, and insertion order for `range`. -/
def sampleEnv : Env :=
  { version := "1.0"
    toDuration := fun x =>
      match x with
      | .finite q => Int.tdiv (q * 1000000000).num (q * 1000000000).den
      | _ => 0
    parseURL := sampleParseURL
    appendCertsFromPEM := fun _ => none
    x509KeyPair := fun _ _ => none
    proxyFromEnvironment := fun _ => none
    doRequest := fun _ _ _ => some (sampleResponse 200 [])
    readSetCookies := fun h => (h.values "Set-Cookie").map fun l => { name := "", value := "", raw := l }
    cookieString := fun c => c.raw
    rangeOrder := fun h => h }

/-- A sample machine: the file `/tmp/x.json` holds a small JSON text, the file
`up.bin` holds `DATA`, the file `jar.txt` holds `old`, no other file is
readable; these three and the directory `/tmp` can be opened, and every path
can be created. -/
def sampleWorld : World :=
  { files := fun p =>
      if p = "/tmp/x.json" then some "\x7b\"a\":1\x7d"
      else if p = "up.bin" then some "DATA"
      else if p = "jar.txt" then some "old\n"
      else none
    openable := fun p =>
      decide (p = "/tmp/x.json") || decide (p = "up.bin") || decide (p = "jar.txt") ||
        decide (p = "/tmp")
    creatable := fun _ => true
    stdin := ""
    stdout := ""
    stderr := ""
    ops := [] }

/-- A request with the given header map, used as a redirect hop or as an
earlier request in the examples. -/
def sampleRequest (h : Header) : Request :=
  { method := "GET", url := { scheme := "http", host := "example.com", path := "/" },
    host := "example.com", header := h, body := .none }

/-- A configuration that follows up to three redirects. -/
def threeRedirectsConfig : curlModeConfig :=
  { emptyConfig with followRedirects := true, maxRedirs := 3 }

/-- A configuration that follows up to five redirects and trusts the
locations it is sent to. -/
def trustedConfig : curlModeConfig :=
  { emptyConfig with followRedirects := true, maxRedirs := 5, locationTrusted := true }

/-- A configuration whose header list names a User-Agent and whose
`userAgent` field is empty. -/
def explicitUserAgentConfig : curlModeConfig :=
  { emptyConfig with url := "http://example.com/", headers := ["User-Agent: custom/1.0"] }

/-- A configuration that uploads the file `up.bin` and sets no `data`. -/
def uploadOnlyConfig : curlModeConfig :=
  { emptyConfig with url := "http://example.com/", uploadFile := "up.bin" }

/-- A configuration with inline data whose header lines give an empty
Content-Type first and `text/plain` second. -/
def emptyFirstContentTypeConfig : curlModeConfig :=
  { emptyConfig with url := "http://example.com/", data := "x",
                     headers := ["Content-Type:", "Content-Type: text/plain"] }

/-- A configuration whose body is the contents of the file `/tmp/x.json`. -/
def jsonFileConfig : curlModeConfig :=
  { emptyConfig with url := "http://example.com/", data := "@/tmp/x.json" }

/-- The two errors of the CA bundle. -/
def CurlError.isCAError : CurlError → Bool
  | .readCACert => true
  | .parseCACert => true
  | _ => false

/-- A configuration in insecure mode that names a CA bundle no one can read. -/
def insecureConfig : curlModeConfig :=
  { emptyConfig with url := "http://example.com/", insecure := true, cacert := "/missing.pem" }

/-- The request `executeCurlMode` hands to `client.Do`, when it gets that far. -/
def sentRequest (env : Env) (config : curlModeConfig) (w : World) : Option Request :=
  match (prepare env config w).1 with
  | .ok (req, _, _) => some req
  | .error _ => none

/-- The value of the local `config.url` when `client.Do` is called. -/
def urlAtSend (env : Env) (config : curlModeConfig) (w : World) : Option String :=
  match (prepare env config w).1 with
  | .ok (_, _, config2) => some config2.url
  | .error _ => none

/-- The dialer of the transport when `client.Do` is called. -/
def dialerAtSend (env : Env) (config : curlModeConfig) (w : World) : Option Dialer :=
  match (prepare env config w).1 with
  | .ok (_, client, _) => some client.transport.dialContext
  | .error _ => none

/-- A configuration for a Unix socket with a path-only URL. -/
def unixSocketConfig : curlModeConfig :=
  { emptyConfig with url := "/v1/status", unixSocket := "/var/run/app.sock" }

/-- The lines written to the jar: one serialized cookie and a newline each,
in the order received. -/
def jarLines (env : Env) (cookies : List Cookie) : List String :=
  cookies.map fun c => env.cookieString c ++ "\n"

/-- A configuration that fails on HTTP errors. -/
def failOnErrorConfig : curlModeConfig :=
  { emptyConfig with url := "http://example.com/", failOnError := true }

/-! ## Lemmas on strings and headers -/

theorem at_append_data (path : String) : ("@" ++ path).data = '@' :: path.data := by
  simp [String.data_append]

theorem hasPrefix_at_append (path : String) : hasPrefix ("@" ++ path) "@" = true := by
  simp [hasPrefix, at_append_data]

theorem dropFirst_at_append (path : String) : dropFirst ("@" ++ path) = path := by
  simp [dropFirst, at_append_data]

theorem at_append_ne_at (path : String) (h : path ≠ "") : "@" ++ path ≠ "@" := by
  intro h1
  have h2 := congrArg String.data h1
  rw [at_append_data] at h2
  apply h
  apply String.ext
  have h3 : ("@" : String).data = ['@'] := rfl
  rw [h3] at h2
  simpa using h2

theorem at_append_ne_empty (path : String) : "@" ++ path ≠ "" := by
  intro h1
  have h2 := congrArg String.data h1
  rw [at_append_data] at h2
  simp at h2

theorem Header.values_put (h : Header) (k k1 : String) (vs : List String) :
    (h.put k vs).values k1 = if k = k1 then vs else h.values k1 := by
  induction h with
  | nil => simp [Header.put, Header.values]
  | cons kv t ih =>
    obtain ⟨k2, vs2⟩ := kv
    by_cases h1 : k2 = k
    · subst h1
      by_cases h2 : k2 = k1 <;> simp [Header.put, Header.values, h2]
    · by_cases h2 : k2 = k1
      · subst h2
        have h3 : ¬ k = k2 := fun e => h1 e.symm
        simp [Header.put, Header.values, h1, h3]
      · simp [Header.put, Header.values, h1, h2, ih]

theorem Header.values_set (h : Header) (key value k1 : String) :
    (h.set key value).values k1 =
      if canonicalMIMEHeaderKey key = k1 then [value] else h.values k1 := by
  simp [Header.set, Header.values_put]

theorem Header.get_set_same (h : Header) (key value : String) :
    (h.set key value).get key = value := by
  simp [Header.get, Header.values_set]

/-! ## Method inference and body source -/

theorem inferMethod_ne_empty (config : curlModeConfig) : inferMethod config ≠ "" := by
  unfold inferMethod
  split
  · split
    · decide
    · split
      · decide
      · split <;> decide
  · assumption

theorem newRequest_method (env : Env) (method url : String) (body : Body) (req : Request)
    (hm : method ≠ "") (h : newRequest env method url body = some req) :
    req.method = method ∧ req.body = body ∧ env.parseURL url = some req.url ∧ req.header = [] := by
  unfold newRequest at h
  simp only [hm, if_false] at h
  split at h
  · split at h
    · exact absurd h (by simp)
    · rename_i u hu
      have h1 := Option.some.inj h
      subst h1
      exact ⟨rfl, rfl, hu, rfl⟩
  · exact absurd h (by simp)

theorem buildRequest_ok (env : Env) (config : curlModeConfig) (w : World) (req : Request)
    (w1 : World) (h : buildRequest env config w = (.ok req, w1)) :
    ∃ (r0 : Request) (w0 : World) (h4 : Header),
      resolveBody config w = (.ok r0.body, w0) ∧
      newRequest env (inferMethod config) config.url r0.body = some r0 ∧
      setCookie config
        (setReferer config (setUserAgent env config (addHeaders r0.header config.headers))) w0 =
          (.ok h4, w1) ∧
      req = { r0 with
        header := setCompressed config (setContentType config (setRange config h4)) } := by
  unfold buildRequest at h
  dsimp only at h
  split at h
  · exact absurd (congrArg Prod.fst h) (by simp)
  · rename_i bodyReader w0 hb
    split at h
    · exact absurd (congrArg Prod.fst h) (by simp)
    · rename_i r0 hr
      split at h
      · exact absurd (congrArg Prod.fst h) (by simp)
      · rename_i h4 w2 hc
        have hbody := (newRequest_method env _ _ _ r0 (inferMethod_ne_empty config) hr).2.1
        have h1 := congrArg Prod.fst h
        have h2 := congrArg Prod.snd h
        simp only at h1 h2
        subst h2
        refine ⟨r0, w0, h4, ?_, ?_, hc, ?_⟩
        · rw [hbody]; exact hb
        · rw [hbody]; exact hr
        · exact (Except.ok.inj h1).symm

/-- C1: method inference.  With an empty `method` the request method is HEAD
when `headersOnly` is set, otherwise PUT when `uploadFile` is non-empty,
otherwise POST when `data` is non-empty, otherwise GET; a non-empty `method` is
used as it is, whatever the other fields are.  The method so determined is the
method of every request the function assembles. -/
theorem method_inference (config : curlModeConfig) :
    (config.method = "" → config.headersOnly = true → inferMethod config = "HEAD") ∧
    (config.method = "" → config.headersOnly = false → config.uploadFile ≠ "" →
      inferMethod config = "PUT") ∧
    (config.method = "" → config.headersOnly = false → config.uploadFile = "" →
      config.data ≠ "" → inferMethod config = "POST") ∧
    (config.method = "" → config.headersOnly = false → config.uploadFile = "" →
      config.data = "" → inferMethod config = "GET") ∧
    (config.method ≠ "" → inferMethod config = config.method) ∧
    (∀ (env : Env) (w : World) (req : Request) (w1 : World),
      buildRequest env config w = (.ok req, w1) → req.method = inferMethod config) := by
  refine ⟨?_, ?_, ?_, ?_, ?_, ?_⟩
  · intro h1 h2; simp [inferMethod, h1, h2]
  · intro h1 h2 h3; simp [inferMethod, h1, h2, h3]
  · intro h1 h2 h3 h4; simp [inferMethod, h1, h2, h3, h4]
  · intro h1 h2 h3 h4; simp [inferMethod, h1, h2, h3, h4]
  · intro h1; simp [inferMethod, h1]
  · intro env w req w1 h
    obtain ⟨r0, w0, h4, _, hr, _, hreq⟩ := buildRequest_ok env config w req w1 h
    rw [hreq]
    exact (newRequest_method env _ _ _ r0 (inferMethod_ne_empty config) hr).1

/-- C1 at concrete inputs: a configuration with only `data` set is sent as
POST, and the request assembled for it carries that method. -/
theorem method_inference_witness :
    inferMethod { emptyConfig with url := "http://example.com/", data := "x" } = "POST" ∧
    (buildRequest sampleEnv { emptyConfig with url := "http://example.com/", data := "x" }
      sampleWorld).1 =
      .ok { method := "POST"
            url := { scheme := "http", host := "example.com", path := "/" }
            host := "example.com"
            header := [("User-Agent", ["gurl/1.0 (HTTP mode)"]),
              ("Content-Type", ["application/json"])]
            body := .text "x" } :=
  ⟨(method_inference { emptyConfig with url := "http://example.com/", data := "x" }).2.2.1
      rfl rfl rfl (by decide), by rfl⟩

theorem hasPrefix_at_iff (s : String) :
    hasPrefix s "@" = true ↔ ∃ rest : String, s = "@" ++ rest := by
  constructor
  · intro h
    refine ⟨dropFirst s, ?_⟩
    apply String.ext
    rw [at_append_data]
    have h3 : ("@" : String).data = ['@'] := rfl
    unfold hasPrefix at h
    rw [h3] at h
    cases hs : s.data with
    | nil => rw [hs] at h; simp [List.isPrefixOf] at h
    | cons c t =>
      rw [hs] at h
      simp [List.isPrefixOf] at h
      simp [dropFirst, hs, h.symm]
  · rintro ⟨rest, rfl⟩
    exact hasPrefix_at_append rest

/-- C2: body source resolution.  Exactly one source is chosen, by precedence:
a non-empty `uploadFile` gives the stream of that file (an error when it cannot
be opened), whatever `data` is; otherwise `data = "@"` gives standard input;
otherwise `data = "@" ++ path` gives a reader over exactly the contents of the
file `path` (an error when it cannot be read); otherwise a non-empty `data`
gives a reader over the text of `data`; otherwise there is no body.  The body so
chosen is the body of every request the function assembles. -/
theorem body_source_resolution (config : curlModeConfig) (w : World) :
    (config.uploadFile ≠ "" →
      (resolveBody config w).1 =
        if w.openable config.uploadFile = true then .ok (.file config.uploadFile)
        else .error (.openUploadFile config.uploadFile)) ∧
    (config.uploadFile = "" → config.data = "@" → (resolveBody config w).1 = .ok .stdin) ∧
    (config.uploadFile = "" → ∀ path : String, path ≠ "" → config.data = "@" ++ path →
      (resolveBody config w).1 =
        match w.files path with
        | some bytes => .ok (.text bytes)
        | none => .error (.readDataFile path)) ∧
    (config.uploadFile = "" → config.data ≠ "" → (∀ rest : String, config.data ≠ "@" ++ rest) →
      (resolveBody config w).1 = .ok (.text config.data)) ∧
    (config.uploadFile = "" → config.data = "" → (resolveBody config w).1 = .ok .none) ∧
    (∀ (env : Env) (req : Request) (w1 : World),
      buildRequest env config w = (.ok req, w1) → (resolveBody config w).1 = .ok req.body) := by
  refine ⟨?_, ?_, ?_, ?_, ?_, ?_⟩
  · intro h1
    cases hf : w.openable config.uploadFile <;> simp [resolveBody, World.openFile, h1, hf]
  · intro h1 h2
    simp [resolveBody, h1, h2]
  · intro h1 path hp hd
    have h2 := at_append_ne_at path hp
    have h3 := at_append_ne_empty path
    cases hf : w.files path <;>
      simp [resolveBody, World.readFile, h1, hd, h2, h3, hasPrefix_at_append,
        dropFirst_at_append, hf]
  · intro h1 h2 h3
    have h4 : config.data ≠ "@" := by
      intro e
      exact h3 "" (by rw [e]; rfl)
    have h5 : hasPrefix config.data "@" = false := by
      cases hh : hasPrefix config.data "@" with
      | false => rfl
      | true =>
        obtain ⟨rest, hr⟩ := (hasPrefix_at_iff config.data).1 hh
        exact absurd hr (h3 rest)
    simp [resolveBody, h1, h2, h4, h5]
  · intro h1 h2
    simp [resolveBody, h1, h2]
  · intro env req w1 h
    obtain ⟨r0, w0, h4, hb, _, _, hreq⟩ := buildRequest_ok env config w req w1 h
    rw [hreq, hb]

/-- C2 at concrete inputs: with `data = "@/tmp/x.json"` the body is the
contents of that file, byte for byte; with an upload file also set, the upload
file wins. -/
theorem body_source_resolution_witness :
    (resolveBody { emptyConfig with data := "@/tmp/x.json" } sampleWorld).1 =
      .ok (.text "\x7b\"a\":1\x7d") ∧
    (resolveBody { emptyConfig with data := "@/tmp/x.json", uploadFile := "up.bin" }
      sampleWorld).1 = .ok (.file "up.bin") :=
  ⟨(body_source_resolution { emptyConfig with data := "@/tmp/x.json" } sampleWorld).2.2.1
      rfl "/tmp/x.json" (by decide) (by decide),
   (body_source_resolution { emptyConfig with data := "@/tmp/x.json", uploadFile := "up.bin" }
      sampleWorld).1 (by decide)⟩

/-! ## Redirect policy -/

theorem checkRedirect_stops_iff (config : curlModeConfig) (req : Request) (via : List Request)
    (hf : config.followRedirects = true) :
    (checkRedirect config req via).2 = some (.stoppedAfter config.maxRedirs) ↔
      config.maxRedirs ≤ (via.length : Int) := by
  unfold checkRedirect
  rw [if_pos hf]
  by_cases h : (via.length : Int) ≥ config.maxRedirs
  · rw [if_pos h]
    exact ⟨fun _ => h, fun _ => rfl⟩
  · rw [if_neg h]
    constructor
    · intro h1
      exfalso
      split at h1
      · split at h1
        · simp at h1
        · dsimp only at h1
          split at h1 <;> simp at h1
      · simp at h1
    · intro h1
      exact absurd h1 h

theorem checkRedirect_followed (config : curlModeConfig) (req orig : Request)
    (rest : List Request) (hf : config.followRedirects = true)
    (hm : ¬ ((orig :: rest).length : Int) ≥ config.maxRedirs) :
    checkRedirect config req (orig :: rest) =
      if config.locationTrusted = true ∧ orig.header.get "Authorization" ≠ "" then
        ({ req with header := req.header.set "Authorization" (orig.header.get "Authorization") },
          none)
      else (req, none) := by
  unfold checkRedirect
  rw [if_pos hf, if_neg hm]
  by_cases ht : config.locationTrusted = true
  · by_cases ha : orig.header.get "Authorization" = "" <;> simp [ht, ha]
  · simp [ht]

theorem checkRedirect_untrusted (config : curlModeConfig) (ht : config.locationTrusted = false)
    (r : Request) (via : List Request) : (checkRedirect config r via).1 = r := by
  unfold checkRedirect
  split
  · split
    · rfl
    · rw [if_neg (by simp [ht])]
  · rfl

/-- C3, the code at `maxRedirs = 3`: consulted on the first and on the second
redirect (histories of one and two requests) the policy follows, and consulted
on the third redirect (a history of three requests) it already returns the
error `stopped after 3 redirects`; the third redirect is not followed. -/
theorem redirect_limit_three_stops_at_third :
    (checkRedirect threeRedirectsConfig (sampleRequest []) [sampleRequest []]).2 = none ∧
    (checkRedirect threeRedirectsConfig (sampleRequest [])
      [sampleRequest [], sampleRequest []]).2 = none ∧
    (checkRedirect threeRedirectsConfig (sampleRequest [])
      [sampleRequest [], sampleRequest [], sampleRequest []]).2 = some (.stoppedAfter 3) := by
  decide

/-- C4: redirect auth propagation.  On every hop the policy follows (it
returns no error) with the original request first in the history: when
`locationTrusted` is set and the original request has a non-empty
Authorization value, the hop request leaves the policy with that value as its
Authorization; when `locationTrusted` is not set the hop request leaves the
policy unchanged.  With `locationTrusted` not set the policy changes no request
at all, followed or not. -/
theorem redirect_auth_propagation (config : curlModeConfig) (req orig : Request)
    (rest : List Request) (hfollow : (checkRedirect config req (orig :: rest)).2 = none) :
    (config.locationTrusted = true → orig.header.get "Authorization" ≠ "" →
      (checkRedirect config req (orig :: rest)).1.header.get "Authorization" =
        orig.header.get "Authorization" ∧
      (checkRedirect config req (orig :: rest)).1.header.values "Authorization" =
        [orig.header.get "Authorization"]) ∧
    (config.locationTrusted = false → (checkRedirect config req (orig :: rest)).1 = req) ∧
    (config.locationTrusted = false → ∀ (r : Request) (via : List Request),
      (checkRedirect config r via).1 = r) := by
  refine ⟨?_, ?_, ?_⟩
  · intro ht ha
    have hf : config.followRedirects = true := by
      cases hc : config.followRedirects with
      | true => rfl
      | false => simp [checkRedirect, hc] at hfollow
    have hm : ¬ ((orig :: rest).length : Int) ≥ config.maxRedirs := by
      intro hm
      have h1 := (checkRedirect_stops_iff config req (orig :: rest) hf).2 hm
      rw [hfollow] at h1
      simp at h1
    have hc : canonicalMIMEHeaderKey "Authorization" = "Authorization" := by decide
    rw [checkRedirect_followed config req orig rest hf hm, if_pos ⟨ht, ha⟩]
    exact ⟨Header.get_set_same _ _ _, by simp [Header.values_set, hc]⟩
  · intro ht
    exact checkRedirect_untrusted config ht req (orig :: rest)
  · intro ht r via
    exact checkRedirect_untrusted config ht r via

/-- C4 at concrete inputs: with `locationTrusted` set and five redirects
allowed, the hop after a request carrying `Authorization: Bearer t` leaves the
policy with that same value. -/
theorem redirect_auth_propagation_witness :
    (checkRedirect trustedConfig (sampleRequest [])
      [sampleRequest [("Authorization", ["Bearer t"])]]).2 = none ∧
    (checkRedirect trustedConfig (sampleRequest [])
      [sampleRequest [("Authorization", ["Bearer t"])]]).1.header.get "Authorization" =
        "Bearer t" :=
  ⟨by decide,
   ((redirect_auth_propagation trustedConfig (sampleRequest [])
      (sampleRequest [("Authorization", ["Bearer t"])]) [] (by decide)).1 rfl (by decide)).1⟩

/-! ## Header assembly -/

theorem Header.values_set_ne (h : Header) (key value k1 : String)
    (hne : canonicalMIMEHeaderKey key ≠ k1) : (h.set key value).values k1 = h.values k1 := by
  rw [Header.values_set, if_neg hne]

theorem setUserAgent_values (env : Env) (config : curlModeConfig) (h : Header) (k1 : String)
    (hne : canonicalMIMEHeaderKey "User-Agent" ≠ k1) :
    (setUserAgent env config h).values k1 = h.values k1 := by
  unfold setUserAgent
  split <;> exact Header.values_set_ne _ _ _ _ hne

theorem setReferer_values (config : curlModeConfig) (h : Header) (k1 : String)
    (hne : canonicalMIMEHeaderKey "Referer" ≠ k1) :
    (setReferer config h).values k1 = h.values k1 := by
  unfold setReferer
  split
  · exact Header.values_set_ne _ _ _ _ hne
  · rfl

theorem setCookie_values (config : curlModeConfig) (h h4 : Header) (w w1 : World) (k1 : String)
    (hne : canonicalMIMEHeaderKey "Cookie" ≠ k1) (hc : setCookie config h w = (.ok h4, w1)) :
    h4.values k1 = h.values k1 := by
  unfold setCookie at hc
  split at hc
  · split at hc
    · split at hc
      · exact absurd (congrArg Prod.fst hc) (by simp)
      · have h1 := Except.ok.inj (congrArg Prod.fst hc)
        rw [← h1]
        exact Header.values_set_ne _ _ _ _ hne
    · have h1 := Except.ok.inj (congrArg Prod.fst hc)
      rw [← h1]
      exact Header.values_set_ne _ _ _ _ hne
  · have h1 := Except.ok.inj (congrArg Prod.fst hc)
    rw [← h1]

theorem setRange_values (config : curlModeConfig) (h : Header) (k1 : String)
    (hne : canonicalMIMEHeaderKey "Range" ≠ k1) :
    (setRange config h).values k1 = h.values k1 := by
  unfold setRange
  split
  · exact Header.values_set_ne _ _ _ _ hne
  · rfl

theorem setContentType_values (config : curlModeConfig) (h : Header) (k1 : String)
    (hne : canonicalMIMEHeaderKey "Content-Type" ≠ k1) :
    (setContentType config h).values k1 = h.values k1 := by
  unfold setContentType
  split
  · exact Header.values_set_ne _ _ _ _ hne
  · rfl

theorem setCompressed_values (config : curlModeConfig) (h : Header) (k1 : String)
    (hne : canonicalMIMEHeaderKey "Accept-Encoding" ≠ k1) :
    (setCompressed config h).values k1 = h.values k1 := by
  unfold setCompressed
  split
  · exact Header.values_set_ne _ _ _ _ hne
  · rfl

theorem Header.get_eq_of_values (h1 h2 : Header) (key : String)
    (hv : h1.values (canonicalMIMEHeaderKey key) = h2.values (canonicalMIMEHeaderKey key)) :
    h1.get key = h2.get key := by
  unfold Header.get
  rw [hv]

/-- With an empty `userAgent` field the assembled request always carries the
fixed default as its only User-Agent value, whatever the header list holds. -/
theorem userAgent_default_wins (env : Env) (config : curlModeConfig) (w : World) (req : Request)
    (w1 : World) (hu : config.userAgent = "") (h : buildRequest env config w = (.ok req, w1)) :
    req.header.values "User-Agent" = ["gurl/" ++ env.version ++ " (HTTP mode)"] := by
  obtain ⟨r0, w0, h4, _, _, hc, hreq⟩ := buildRequest_ok env config w req w1 h
  have hua : canonicalMIMEHeaderKey "User-Agent" = "User-Agent" := by decide
  rw [hreq]
  show (setCompressed config (setContentType config (setRange config h4))).values "User-Agent" = _
  rw [setCompressed_values _ _ _ (by decide), setContentType_values _ _ _ (by decide),
    setRange_values _ _ _ (by decide), setCookie_values _ _ _ _ _ _ (by decide) hc,
    setReferer_values _ _ _ (by decide)]
  simp [setUserAgent, hu, Header.values_set, hua]

/-- C5, the code at the failing input: the header list is read first and
gives `User-Agent: custom/1.0`, then the unconditional `Set` replaces it, so the
assembled request carries only the fixed default identifier. -/
theorem explicit_user_agent_replaced_by_default :
    (addHeaders [] explicitUserAgentConfig.headers).get "User-Agent" = "custom/1.0" ∧
    explicitUserAgentConfig.userAgent = "" ∧
    (buildRequest sampleEnv explicitUserAgentConfig sampleWorld).1 =
      .ok { method := "GET"
            url := { scheme := "http", host := "example.com", path := "/" }
            host := "example.com"
            header := [("User-Agent", ["gurl/1.0 (HTTP mode)"])]
            body := .none } :=
  ⟨by decide, rfl, by rfl⟩

/-- C6 as stated fails: the request assembled for an upload without `data` has
a body (the stream of `up.bin`), the caller supplied no Content-Type, and yet
the request carries no Content-Type header at all. -/
theorem upload_body_gets_no_content_type :
    (buildRequest sampleEnv uploadOnlyConfig sampleWorld).1 =
      .ok { method := "PUT"
            url := { scheme := "http", host := "example.com", path := "/" }
            host := "example.com"
            header := [("User-Agent", ["gurl/1.0 (HTTP mode)"])]
            body := .file "up.bin" } ∧
    (addHeaders [] uploadOnlyConfig.headers).values "Content-Type" = [] ∧
    Header.values [("User-Agent", ["gurl/1.0 (HTTP mode)"])] "Content-Type" = [] :=
  ⟨by rfl, by decide, by decide⟩

/-- C6 amended: in every request the function assembles, Content-Type is the
single value `application/json` when `data` is non-empty and the first
Content-Type value of the caller's header lines is absent or empty
(`Header.Get` gives the empty string; whatever Content-Type values the caller
gave are then replaced by the default); in every other case (empty `data`, even
with an upload file as body, or a non-empty first Content-Type value from the
caller) the Content-Type values are exactly the caller's: no default is added
and nothing is replaced. -/
theorem content_type_default (env : Env) (config : curlModeConfig) (w : World) (req : Request)
    (w1 : World) (h : buildRequest env config w = (.ok req, w1)) :
    (config.data ≠ "" ∧ (addHeaders [] config.headers).get "Content-Type" = "" →
      req.header.values "Content-Type" = ["application/json"]) ∧
    (¬ (config.data ≠ "" ∧ (addHeaders [] config.headers).get "Content-Type" = "") →
      req.header.values "Content-Type" =
        (addHeaders [] config.headers).values "Content-Type") := by
  obtain ⟨r0, w0, h4, _, hr, hc, hreq⟩ := buildRequest_ok env config w req w1 h
  have hempty := (newRequest_method env _ _ _ r0 (inferMethod_ne_empty config) hr).2.2.2
  rw [hempty] at hc
  have hct : canonicalMIMEHeaderKey "Content-Type" = "Content-Type" := by decide
  have hv : (setRange config h4).values "Content-Type" =
      (addHeaders [] config.headers).values "Content-Type" := by
    rw [setRange_values _ _ _ (by decide), setCookie_values _ _ _ _ _ _ (by decide) hc,
      setReferer_values _ _ _ (by decide), setUserAgent_values _ _ _ _ (by decide)]
  have hg : (setRange config h4).get "Content-Type" =
      (addHeaders [] config.headers).get "Content-Type" :=
    Header.get_eq_of_values _ _ _ (by rw [hct]; exact hv)
  have hfinal : req.header.values "Content-Type" =
      (setContentType config (setRange config h4)).values "Content-Type" := by
    rw [hreq]
    exact setCompressed_values _ _ _ (by decide)
  rw [hfinal]
  unfold setContentType
  rw [hg]
  constructor
  · intro hcond
    rw [if_pos hcond]
    simp [Header.values_set, hct]
  · intro hcond
    rw [if_neg hcond]
    exact hv

/-- C6 amended, at concrete inputs: with `data = "@/tmp/x.json"` and no header
line the assembled request carries `Content-Type: application/json`; with an
empty Content-Type line followed by `Content-Type: text/plain` both values are
replaced by the default; with an upload file and no `data` the request carries
the caller's Content-Type values, which are none. -/
theorem content_type_default_witness :
    ((buildRequest sampleEnv jsonFileConfig sampleWorld).1 =
      .ok { method := "POST"
            url := { scheme := "http", host := "example.com", path := "/" }
            host := "example.com"
            header := [("User-Agent", ["gurl/1.0 (HTTP mode)"]),
              ("Content-Type", ["application/json"])]
            body := .text "\x7b\"a\":1\x7d" } ∧
     Header.values [("User-Agent", ["gurl/1.0 (HTTP mode)"]),
       ("Content-Type", ["application/json"])] "Content-Type" = ["application/json"]) ∧
    ((addHeaders [] emptyFirstContentTypeConfig.headers).values "Content-Type" =
       ["", "text/plain"] ∧
     (buildRequest sampleEnv emptyFirstContentTypeConfig sampleWorld).1 =
      .ok { method := "POST"
            url := { scheme := "http", host := "example.com", path := "/" }
            host := "example.com"
            header := [("Content-Type", ["application/json"]),
              ("User-Agent", ["gurl/1.0 (HTTP mode)"])]
            body := .text "x" } ∧
     Header.values [("Content-Type", ["application/json"]),
       ("User-Agent", ["gurl/1.0 (HTTP mode)"])] "Content-Type" = ["application/json"]) ∧
    Header.values [("User-Agent", ["gurl/1.0 (HTTP mode)"])] "Content-Type" =
      (addHeaders [] uploadOnlyConfig.headers).values "Content-Type" :=
  ⟨⟨by rfl,
    (content_type_default sampleEnv jsonFileConfig sampleWorld
      { method := "POST"
        url := { scheme := "http", host := "example.com", path := "/" }
        host := "example.com"
        header := [("User-Agent", ["gurl/1.0 (HTTP mode)"]),
          ("Content-Type", ["application/json"])]
        body := .text "\x7b\"a\":1\x7d" }
      (buildRequest sampleEnv jsonFileConfig sampleWorld).2 (by rfl)).1
      ⟨by decide, by decide⟩⟩,
   ⟨by decide, by rfl,
    (content_type_default sampleEnv emptyFirstContentTypeConfig sampleWorld
      { method := "POST"
        url := { scheme := "http", host := "example.com", path := "/" }
        host := "example.com"
        header := [("Content-Type", ["application/json"]),
          ("User-Agent", ["gurl/1.0 (HTTP mode)"])]
        body := .text "x" }
      (buildRequest sampleEnv emptyFirstContentTypeConfig sampleWorld).2 (by rfl)).1
      ⟨by decide, by decide⟩⟩,
   (content_type_default sampleEnv uploadOnlyConfig sampleWorld
      { method := "PUT"
        url := { scheme := "http", host := "example.com", path := "/" }
        host := "example.com"
        header := [("User-Agent", ["gurl/1.0 (HTTP mode)"])]
        body := .file "up.bin" }
      (buildRequest sampleEnv uploadOnlyConfig sampleWorld).2 (by rfl)).2
      (by decide)⟩

/-! ## TLS trust -/

theorem resolveBody_error (config : curlModeConfig) (w w1 : World) (e : CurlError)
    (h : resolveBody config w = (.error e, w1)) : e.isCAError = false := by
  unfold resolveBody at h
  split at h
  · split at h
    · simp only [Prod.mk.injEq, Except.error.injEq] at h
      rw [← h.1]; rfl
    · simp at h
  · split at h
    · split at h
      · simp at h
      · split at h
        · dsimp only at h
          split at h
          · simp only [Prod.mk.injEq, Except.error.injEq] at h
            rw [← h.1]; rfl
          · simp at h
        · simp at h
    · simp at h

theorem setCookie_error (config : curlModeConfig) (hd : Header) (w w1 : World) (e : CurlError)
    (h : setCookie config hd w = (.error e, w1)) : e.isCAError = false := by
  unfold setCookie at h
  split at h
  · split at h
    · split at h
      · simp only [Prod.mk.injEq, Except.error.injEq] at h
        rw [← h.1]; rfl
      · simp at h
    · simp at h
  · simp at h

theorem buildRequest_error (env : Env) (config : curlModeConfig) (w w1 : World) (e : CurlError)
    (h : buildRequest env config w = (.error e, w1)) : e.isCAError = false := by
  unfold buildRequest at h
  dsimp only at h
  split at h
  · rename_i e0 w0 hb
    simp only [Prod.mk.injEq, Except.error.injEq] at h
    rw [← h.1]
    exact resolveBody_error config w w0 e0 hb
  · split at h
    · simp only [Prod.mk.injEq, Except.error.injEq] at h
      rw [← h.1]; rfl
    · split at h
      · rename_i e0 w0 hc
        simp only [Prod.mk.injEq, Except.error.injEq] at h
        rw [← h.1]
        exact setCookie_error _ _ _ _ _ hc
      · simp at h

theorem loadClientCert_error (env : Env) (config : curlModeConfig) (t : TLSConfig)
    (w w1 : World) (e : CurlError)
    (h : loadClientCert env config t w = (.error e, w1)) : e.isCAError = false := by
  unfold loadClientCert at h
  split at h
  · split at h
    · simp only [Prod.mk.injEq, Except.error.injEq] at h
      rw [← h.1]; rfl
    · split at h
      · simp only [Prod.mk.injEq, Except.error.injEq] at h
        rw [← h.1]; rfl
      · split at h
        · simp only [Prod.mk.injEq, Except.error.injEq] at h
          rw [← h.1]; rfl
        · simp at h
  · simp at h

theorem handleResponse_error (env : Env) (config : curlModeConfig) (resp : Response)
    (w : World) (e : CurlError)
    (h : (handleResponse env config resp w).1 = .returned (some e)) : e.isCAError = false := by
  unfold handleResponse at h
  split at h
  · rename_i e0 w1 hs
    simp only [Outcome.returned.injEq, Option.some.injEq] at h
    subst h
    unfold saveCookies at hs
    split at hs
    · dsimp only at hs
      split at hs
      · split at hs
        · simp only [Prod.mk.injEq, Except.error.injEq] at hs
          rw [← hs.1]; rfl
        · simp at hs
      · simp at hs
    · simp at hs
  · dsimp only at h
    split at h
    · rename_i e0 w3 hw
      simp only [Outcome.returned.injEq, Option.some.injEq] at h
      subst h
      unfold writeBody at hw
      dsimp only at hw
      split at hw
      · rename_i e1 w4 hd
        simp only [Prod.mk.injEq, Except.error.injEq] at hw
        rw [← hw.1]
        split at hd
        · split at hd
          · simp only [Prod.mk.injEq, Except.error.injEq] at hd
            rw [← hd.1]; rfl
          · simp at hd
        · simp at hd
      · split at hw
        · split at hw
          · simp only [Prod.mk.injEq, Except.error.injEq] at hw
            rw [← hw.1]; rfl
          · split at hw <;> simp at hw
        · simp at hw
    · split at h <;> simp at h

/-- When the CA bundle is not to be loaded (insecure mode, or no bundle named)
the whole function never ends in one of the two CA bundle errors. -/
theorem executeCurlMode_no_ca_error (env : Env) (config : curlModeConfig) (w : World)
    (hc : config.insecure = true ∨ config.cacert = "") (e : CurlError)
    (h : (executeCurlMode env config w).1 = .returned (some e)) : e.isCAError = false := by
  unfold executeCurlMode at h
  split at h
  · rename_i e0 w1 hp
    simp only [Outcome.returned.injEq, Option.some.injEq] at h
    subst h
    unfold prepare at hp
    split at hp
    · rename_i e1 w2 hb
      simp only [Prod.mk.injEq, Except.error.injEq] at hp
      rw [← hp.1]
      exact buildRequest_error env config w w2 e1 hb
    · rename_i r1 wb hb
      split at hp
      · rename_i e1 w3 hl
        exfalso
        have h1 : ∀ w0 : World, (loadCACert env config w0).1 = .ok
            { insecureSkipVerify := config.insecure, rootCAs := none, certificates := [] } := by
          intro w0
          rcases hc with hc | hc <;> simp [loadCACert, hc]
        have h2 := h1 wb
        rw [hl] at h2
        simp at h2
      · split at hp
        · rename_i e1 w4 hl
          simp only [Prod.mk.injEq, Except.error.injEq] at hp
          rw [← hp.1]
          exact loadClientCert_error _ _ _ _ _ _ hl
        · simp at hp
  · dsimp only at h
    split at h
    · simp only [Outcome.returned.injEq, Option.some.injEq] at h
      subst h
      rfl
    · exact handleResponse_error _ _ _ _ _ h

/-- C7: TLS trust invariant.  With `insecure` set the TLS configuration has
verification disabled and no root CA set, no error is raised and the machine is
left as it was (the CA bundle is not read: the log of file-system calls does not
grow), whatever `cacert` names.  With `insecure` not set and `cacert` non-empty,
an unreadable bundle and a bundle holding no valid certificate each abort with
an error, and a valid bundle becomes the root CA set.  With `cacert` empty no
root CA set is installed, no error is raised and nothing is read.  In insecure
mode, and with `cacert` empty, the whole function never ends in a CA bundle
error. -/
theorem tls_trust_invariant (env : Env) (config : curlModeConfig) (w : World) :
    (config.insecure = true →
      loadCACert env config w =
        (.ok { insecureSkipVerify := true, rootCAs := none, certificates := [] }, w)) ∧
    (config.insecure = false → config.cacert ≠ "" → w.files config.cacert = none →
      (loadCACert env config w).1 = .error .readCACert) ∧
    (config.insecure = false → config.cacert ≠ "" → ∀ pem : String,
      w.files config.cacert = some pem → env.appendCertsFromPEM pem = none →
      (loadCACert env config w).1 = .error .parseCACert) ∧
    (config.insecure = false → config.cacert ≠ "" → ∀ (pem : String) (pool : CertPool),
      w.files config.cacert = some pem → env.appendCertsFromPEM pem = some pool →
      (loadCACert env config w).1 =
        .ok { insecureSkipVerify := false, rootCAs := some pool, certificates := [] }) ∧
    (config.cacert = "" →
      loadCACert env config w =
        (.ok { insecureSkipVerify := config.insecure, rootCAs := none, certificates := [] },
          w)) ∧
    (config.insecure = true ∨ config.cacert = "" → ∀ e : CurlError,
      (executeCurlMode env config w).1 = .returned (some e) → e.isCAError = false) := by
  refine ⟨?_, ?_, ?_, ?_, ?_, fun hc e h => executeCurlMode_no_ca_error env config w hc e h⟩
  · intro hi
    simp [loadCACert, hi]
  · intro hi hc hf
    simp [loadCACert, World.readFile, hi, hc, hf]
  · intro hi hc pem hf hp
    simp [loadCACert, World.readFile, hi, hc, hf, hp]
  · intro hi hc pem pool hf hp
    simp [loadCACert, World.readFile, hi, hc, hf, hp]
  · intro hc
    simp [loadCACert, hc]

/-- C7 at concrete inputs: in insecure mode a CA bundle path that cannot be
read gives a configuration without verification and without root CAs, and the
machine is unchanged; the same path without insecure mode is an error. -/
theorem tls_trust_invariant_witness :
    loadCACert sampleEnv insecureConfig sampleWorld =
      (.ok { insecureSkipVerify := true, rootCAs := none, certificates := [] }, sampleWorld) ∧
    (loadCACert sampleEnv { insecureConfig with insecure := false } sampleWorld).1 =
      .error .readCACert :=
  ⟨(tls_trust_invariant sampleEnv insecureConfig sampleWorld).1 rfl,
   (tls_trust_invariant sampleEnv { insecureConfig with insecure := false } sampleWorld).2.1
     rfl (by decide) rfl⟩

/-! ## The request that is sent -/

/-- The URL of the request that is sent is always the parse of the URL the
function was given: the later assignment to `config.url` does not reach it. -/
theorem sentRequest_url (env : Env) (config : curlModeConfig) (w : World) (req : Request)
    (h : sentRequest env config w = some req) : env.parseURL config.url = some req.url := by
  unfold sentRequest prepare at h
  split at h
  · rename_i r client config2 hp
    have h0 := Option.some.inj h
    subst h0
    split at hp
    · exact absurd hp (by simp)
    · rename_i r1 w1 hb
      split at hp
      · exact absurd hp (by simp)
      · split at hp
        · exact absurd hp (by simp)
        · simp only [Except.ok.injEq, Prod.mk.injEq] at hp
          obtain ⟨h1, _⟩ := hp
          subst h1
          obtain ⟨r0, w0, h4, _, hr, _, hreq⟩ := buildRequest_ok env config w r1 w1 hb
          rw [hreq]
          exact (newRequest_method env _ _ _ r0 (inferMethod_ne_empty config) hr).2.2.1
  · exact absurd h (by simp)

theorem slash_append_data (t : String) : ("/" ++ t).data = '/' :: t.data := by
  simp [String.data_append]

/-- For a Unix socket the URL the flags give always starts with a slash, so
it never starts with `http://` or `https://`: the rewrite branch is the one
every such invocation takes. -/
theorem urlFromFlags_unix (args : List String) (url sock : String)
    (h : urlFromFlags true args = some (url, sock)) :
    hasPrefix url "/" = true ∧ hasPrefix url "http://" = false ∧
      hasPrefix url "https://" = false := by
  have key : ∀ u : String, hasPrefix u "/" = true →
      hasPrefix u "http://" = false ∧ hasPrefix u "https://" = false := by
    intro u hu
    unfold hasPrefix at hu ⊢
    have h1 : ("/" : String).data = ['/'] := rfl
    have h2 : ("http://" : String).data = ['h', 't', 't', 'p', ':', '/', '/'] := rfl
    have h3 : ("https://" : String).data = ['h', 't', 't', 'p', 's', ':', '/', '/'] := rfl
    rw [h1] at hu
    rw [h2, h3]
    cases hd : u.data with
    | nil => rw [hd] at hu; simp [List.isPrefixOf] at hu
    | cons c t =>
      rw [hd] at hu
      simp [List.isPrefixOf] at hu
      subst hu
      simp [List.isPrefixOf]
  have hslash : hasPrefix url "/" = true := by
    unfold urlFromFlags at h
    split at h
    · simp at h
    · dsimp only at h
      rw [if_pos rfl] at h
      split at h
      · rename_i arg1 _
        simp only [Option.some.injEq, Prod.mk.injEq] at h
        rw [← h.1]
        by_cases hp : hasPrefix arg1 "/" = true
        · simp [hp]
        · simp only [hp, not_false_eq_true, if_true]
          simp [hasPrefix, slash_append_data]
      · simp only [Option.some.injEq, Prod.mk.injEq] at h
        rw [← h.1]
        decide
  exact ⟨hslash, key url hslash⟩

/-- C9, the code at the failing input: the flags for the socket
`/var/run/app.sock` and the path `v1/status` give the URL `/v1/status`; with it
the local `config.url` does become `http://localhost/v1/status` and the dialer
does target the socket, but the request handed to `client.Do` was built before
that: its URL has an empty scheme and an empty host, not `http` and
`localhost`. -/
theorem unix_socket_rewrite_misses_request :
    urlFromFlags true ["/var/run/app.sock", "v1/status"] =
      some (unixSocketConfig.url, unixSocketConfig.unixSocket) ∧
    sentRequest sampleEnv unixSocketConfig sampleWorld =
      some { method := "GET"
             url := { scheme := "", host := "", path := "/v1/status" }
             host := ""
             header := [("User-Agent", ["gurl/1.0 (HTTP mode)"])]
             body := .none } ∧
    urlAtSend sampleEnv unixSocketConfig sampleWorld = some "http://localhost/v1/status" ∧
    dialerAtSend sampleEnv unixSocketConfig sampleWorld =
      some (.unixSocket "/var/run/app.sock") ∧
    sampleEnv.parseURL "http://localhost/v1/status" =
      some { scheme := "http", host := "localhost", path := "/v1/status" } :=
  ⟨by decide, by rfl, by rfl, by rfl, by rfl⟩

/-! ## Cookie jar -/

theorem join_cons (a : String) (l : List String) : String.join (a :: l) = a ++ String.join l := by
  apply String.ext
  simp [String.data_join, String.data_append]

/-- The effect of the loop that writes the jar, on a machine where the jar
file holds `c0`: the lines are appended to it and nothing else changes. -/
theorem jar_loop (env : Env) (jar : String) (cookies : List Cookie) (w : World) (c0 : String)
    (h0 : w.files jar = some c0) :
    (cookies.foldl (fun acc cookie => acc.appendFile jar (env.cookieString cookie ++ "\n"))
        w).files jar = some (c0 ++ String.join (jarLines env cookies)) ∧
    (∀ p : String, p ≠ jar →
      (cookies.foldl (fun acc cookie => acc.appendFile jar (env.cookieString cookie ++ "\n"))
        w).files p = w.files p) ∧
    (cookies.foldl (fun acc cookie => acc.appendFile jar (env.cookieString cookie ++ "\n"))
        w).stdout = w.stdout := by
  induction cookies generalizing w c0 with
  | nil =>
    refine ⟨?_, fun _ _ => rfl, rfl⟩
    simp [jarLines, h0, String.join]
  | cons c t ih =>
    have h1 : (w.appendFile jar (env.cookieString c ++ "\n")).files jar =
        some (c0 ++ (env.cookieString c ++ "\n")) := by
      simp [World.appendFile, h0]
    obtain ⟨i1, i2, i3⟩ := ih (w.appendFile jar (env.cookieString c ++ "\n")) _ h1
    refine ⟨?_, ?_, ?_⟩
    · rw [List.foldl_cons, i1]
      simp [jarLines, join_cons, String.append_assoc]
    · intro p hp
      rw [List.foldl_cons, i2 p hp]
      simp [World.appendFile, hp]
    · rw [List.foldl_cons, i3]
      rfl

theorem saveCookies_stdout (env : Env) (config : curlModeConfig) (resp : Response) (w : World) :
    (saveCookies env config resp w).2.stdout = w.stdout := by
  unfold saveCookies
  split
  · dsimp only
    split
    · cases hc : w.creatable config.cookieJar with
      | false => simp [World.create, hc]
      | true =>
        simp only [World.create, hc, if_true]
        exact (jar_loop env config.cookieJar _ _ "" (by simp)).2.2
    · rfl
  · rfl

theorem printResponseHeaders_stdout (env : Env) (config : curlModeConfig) (resp : Response)
    (w w1 : World) (h : w1.stdout = w.stdout) :
    (printResponseHeaders env config resp w1).stdout =
      (printResponseHeaders env config resp w).stdout := by
  unfold printResponseHeaders
  split
  · simp [World.print, h]
  · exact h

theorem writeBody_stdout_default (config : curlModeConfig) (resp : Response) (w2 w3 : World)
    (hsil : config.silent = false) (hhead : config.headersOnly = false)
    (ho : config.outputFile = "") (hw : writeBody config resp w2 = (.ok (), w3)) :
    w3.stdout = w2.stdout ++ resp.body ++ "\n" := by
  unfold writeBody at hw
  cases hb : resp.bodyError <;>
    simp [ho, hsil, hhead, hb, World.writeOutput, World.print] at hw
  rw [← hw]

theorem writeBody_stdout_dash (config : curlModeConfig) (resp : Response) (w2 w3 : World)
    (hsil : config.silent = false) (hhead : config.headersOnly = false)
    (ho : config.outputFile = "-") (hw : writeBody config resp w2 = (.ok (), w3)) :
    w3.stdout = w2.stdout ++ resp.body := by
  unfold writeBody at hw
  cases hb : resp.bodyError <;>
    simp [ho, hsil, hhead, hb, World.writeOutput, World.print] at hw
  rw [← hw]

theorem writeBody_file (config : curlModeConfig) (resp : Response) (w2 w3 : World)
    (hsil : config.silent = false) (hhead : config.headersOnly = false)
    (ho1 : config.outputFile ≠ "") (ho2 : config.outputFile ≠ "-")
    (hw : writeBody config resp w2 = (.ok (), w3)) :
    w3.files config.outputFile = some resp.body := by
  unfold writeBody at hw
  cases hc : w2.creatable config.outputFile <;> cases hb : resp.bodyError <;>
    simp [ho1, ho2, hsil, hhead, hb, hc, World.create, World.writeOutput, World.appendFile] at hw
  rw [← hw]
  simp

/-- What `handleResponse` does when neither the jar nor the rendering fails. -/
theorem handleResponse_ok (env : Env) (config : curlModeConfig) (resp : Response) (w : World)
    (hok : ∀ e : CurlError, (handleResponse env config resp w).1 ≠ .returned (some e)) :
    ∃ w1 w3 : World,
      saveCookies env config resp w = (.ok (), w1) ∧
      writeBody config resp (printResponseHeaders env config resp w1) = (.ok (), w3) ∧
      handleResponse env config resp w =
        (if config.failOnError = true ∧ resp.statusCode ≥ 400 then (Outcome.exited 22, w3)
         else (Outcome.returned none, w3)) := by
  unfold handleResponse at hok ⊢
  split at hok
  · rename_i e w1 hs
    exact absurd rfl (hok e)
  · rename_i w1 hs
    dsimp only at hok ⊢
    split at hok
    · rename_i e w3 hw
      exact absurd rfl (hok e)
    · rename_i w3 hw
      exact ⟨w1, w3, hs, hw, rfl⟩

/-- C8: fail-on-error outcome.  When the response is handled without error
(the jar, the output file and the body stream all work), the outcome is
`os.Exit(22)` exactly when `failOnError` is set and the status code is at least
400, and a nil return otherwise.  What is written does not depend on
`failOnError` or on the status code; with `silent` and `headersOnly` both unset
the body is written: to standard output, followed by a newline when
`outputFile` is empty and as it is when `outputFile` is `-`, or as the contents
of the named output file. -/
theorem fail_on_error_outcome (env : Env) (config : curlModeConfig) (resp : Response)
    (w : World)
    (hok : ∀ e : CurlError, (handleResponse env config resp w).1 ≠ .returned (some e)) :
    ((handleResponse env config resp w).1 = .exited 22 ↔
      (config.failOnError = true ∧ resp.statusCode ≥ 400)) ∧
    (¬ (config.failOnError = true ∧ resp.statusCode ≥ 400) →
      (handleResponse env config resp w).1 = .returned none) ∧
    (∀ (b : Bool) (code : Int),
      (handleResponse env { config with failOnError := b } { resp with statusCode := code }
        w).2 = (handleResponse env config resp w).2) ∧
    (config.silent = false → config.headersOnly = false →
      (config.outputFile = "" →
        (handleResponse env config resp w).2.stdout =
          (printResponseHeaders env config resp w).stdout ++ resp.body ++ "\n") ∧
      (config.outputFile = "-" →
        (handleResponse env config resp w).2.stdout =
          (printResponseHeaders env config resp w).stdout ++ resp.body) ∧
      (config.outputFile ≠ "" → config.outputFile ≠ "-" →
        (handleResponse env config resp w).2.files config.outputFile = some resp.body)) := by
  obtain ⟨w1, w3, hs, hw, hh⟩ := handleResponse_ok env config resp w hok
  have hp : (printResponseHeaders env config resp w1).stdout =
      (printResponseHeaders env config resp w).stdout := by
    apply printResponseHeaders_stdout
    have h1 := saveCookies_stdout env config resp w
    rw [hs] at h1
    exact h1
  have hsnd : (handleResponse env config resp w).2 = w3 := by
    rw [hh]
    split <;> rfl
  refine ⟨?_, ?_, ?_, ?_⟩
  · rw [hh]
    constructor
    · intro h1
      by_contra hc
      rw [if_neg hc] at h1
      simp at h1
    · intro hc
      rw [if_pos hc]
  · intro hc
    rw [hh, if_neg hc]
  · intro b code
    rw [hsnd]
    have e1 : saveCookies env { config with failOnError := b } { resp with statusCode := code } w =
        saveCookies env config resp w := rfl
    have e2 : ∀ w0 : World,
        printResponseHeaders env { config with failOnError := b }
          { resp with statusCode := code } w0 = printResponseHeaders env config resp w0 :=
      fun _ => rfl
    have e3 : ∀ w2 : World,
        writeBody { config with failOnError := b } { resp with statusCode := code } w2 =
          writeBody config resp w2 := fun _ => rfl
    unfold handleResponse
    rw [e1, hs]
    dsimp only
    rw [e2, e3, hw]
    dsimp only
    split <;> rfl
  · intro hsil hhead
    rw [hsnd]
    refine ⟨?_, ?_, ?_⟩
    · intro ho
      rw [writeBody_stdout_default config resp _ w3 hsil hhead ho hw, hp]
    · intro ho
      rw [writeBody_stdout_dash config resp _ w3 hsil hhead ho hw, hp]
    · intro ho1 ho2
      exact writeBody_file config resp _ w3 hsil hhead ho1 ho2 hw

/-- C8 at concrete inputs: a 404 response under `failOnError` ends in
`os.Exit(22)` with the body and a newline on standard output; the same response
without `failOnError` ends in a nil return with the same output. -/
theorem fail_on_error_outcome_witness :
    (handleResponse sampleEnv failOnErrorConfig (sampleResponse 404 []) sampleWorld).1 =
      .exited 22 ∧
    (handleResponse sampleEnv failOnErrorConfig (sampleResponse 404 []) sampleWorld).2.stdout =
      "hello\n" ∧
    (handleResponse sampleEnv { failOnErrorConfig with failOnError := false }
      (sampleResponse 404 []) sampleWorld).1 = .returned none ∧
    (handleResponse sampleEnv { failOnErrorConfig with failOnError := false }
      (sampleResponse 404 []) sampleWorld).2.stdout = "hello\n" :=
  ⟨(fail_on_error_outcome sampleEnv failOnErrorConfig (sampleResponse 404 []) sampleWorld
      (by intro e h; cases h)).1.2 ⟨rfl, by decide⟩,
   ((fail_on_error_outcome sampleEnv failOnErrorConfig (sampleResponse 404 []) sampleWorld
      (by intro e h; cases h)).2.2.2 rfl rfl).1 rfl,
   (fail_on_error_outcome sampleEnv { failOnErrorConfig with failOnError := false }
      (sampleResponse 404 []) sampleWorld (by intro e h; cases h)).2.1 (by decide),
   ((fail_on_error_outcome sampleEnv { failOnErrorConfig with failOnError := false }
      (sampleResponse 404 []) sampleWorld (by intro e h; cases h)).2.2.2 rfl rfl).1 rfl⟩


/-! ## The cookie jar over the whole exchange -/

end Gurl
